import Mathlib

/-!
# Shallow embedding of the agentic task-runner core

This file embeds the plan-then-execute pipeline of the repository
(`src/lib/agent.ts` and the tool module) as executable Lean definitions and
proves the specified properties about them.

Modelling conventions, applied uniformly:

* Asynchronous effects are made explicit.  All network traffic and the two
  LLM calls are supplied by a `World` value: `World.fetch` maps a search
  query to the outcome of the HTTP GET issued by the search tool (the URL
  construction via `encodeURIComponent` is injective in the query, so keying
  the oracle on the query loses no generality), and `World.planResponse` /
  `World.finalResponse` give the result of the two OpenAI calls, with
  `Except.error msg` standing for a thrown exception whose extracted message
  (`error instanceof Error ? error.message : "Unknown error"`) is `msg`.
* `crypto.randomUUID()` is modelled as a fresh-name supply: every call site
  consumes one counter value `n` and uses `toString n` as the identifier.
  No property below inspects identifier values.
* `new Date()` instants are modelled as integer epoch milliseconds carried
  by the world: the instant observed at function entry is `World.startTime`
  and the instant observed at completion is `World.endTime`.  The
  `toISOString()` rendering of those instants is not modelled; the `meta`
  record carries the instants themselves.
* JavaScript string truthiness (`x || y`) is modelled as
  `if x = "" then y else x`; `!s.trim()` is modelled as "every character of
  `s` is whitespace".  `String.prototype.toLowerCase` and the regex classes
  involved are ASCII in every string the program manipulates, and are
  modelled by the ASCII case conversion / ASCII character classes.
* The calculator's delegation to the JavaScript engine
  (`Function('"use strict"; return (<expr>);')()`) is modelled by an
  explicit evaluator parameter `evalFn`; the concrete instance `jsEval`
  models ECMAScript evaluation of the expression fragment admitted by the
  character whitelist, with numbers represented exactly as rationals.  On
  the integer-valued computations exercised below this model agrees exactly
  with IEEE-754 evaluation; documented deviations (float rounding of
  non-terminating decimals, signed zero, non-integer exponents of `**`) are
  outside every property proved here.
-/

attribute [local semireducible] Rat.add Rat.sub Rat.mul Rat.inv

namespace Agent

/-- `String.prototype.toLowerCase` on the ASCII strings this program
manipulates: character-wise ASCII case conversion. -/
def jsToLower (s : String) : String :=
  String.mk (s.data.map Char.toLower)

/-- The JavaScript whitespace characters matched by `\s` (ASCII part). -/
def isJsSpace (c : Char) : Bool :=
  c == ' ' || c == '\t' || c == '\n' || c == '\r' || c == '\x0b' || c == '\x0c'

/-- Models `!s.trim()`: the string is empty after trimming iff every
character is whitespace. -/
def jsTrimEmpty (s : String) : Bool :=
  s.toList.all isJsSpace

/-- Substring containment on character lists (models
`String.prototype.includes`). -/
def containsSub (hay needle : List Char) : Bool :=
  match hay with
  | [] => needle.isEmpty
  | _ :: t => needle.isPrefixOf hay || containsSub t needle

/-! ## Data model (`src/unnamed/part_000`, `src/lib/agent.ts`) -/

/-- `ToolContext` from the tool module. -/
structure ToolContext where
  task : String
  deriving DecidableEq

/-- `ToolExecution` from the tool module.  `error` is `none` exactly when
the TypeScript object carries no `error` property. -/
structure ToolExecution where
  id : String
  tool : String
  input : String
  output : String
  success : Bool
  error : Option String
  deriving DecidableEq

/-- A document of the in-memory knowledge base. -/
structure KBDoc where
  title : String
  content : String
  deriving DecidableEq

/-- The `KNOWLEDGE_BASE` constant, verbatim. -/
def KNOWLEDGE_BASE : List KBDoc :=
  [ { title := "Agentic AI definition"
      content := "Agentic AI systems combine reasoning, planning, and tool usage to autonomously achieve goals across multiple steps." }
  , { title := "Product launch checklist"
      content := "A successful launch involves defining target personas, crafting messaging, creating assets, scheduling announcements, and preparing success metrics." }
  , { title := "Data storytelling"
      content := "Transform raw analysis into narratives by highlighting the question, methodology, insights, and actionable recommendations." } ]

/-- Characters kept by the tokenizing regex `[a-z0-9]` (its complement is
the separator class `[^a-z0-9]+`). -/
def isQueryAlnum (c : Char) : Bool :=
  ('a' ≤ c && c ≤ 'z') || ('0' ≤ c && c ≤ '9')

/-- The maximal runs of `[a-z0-9]` characters of a list, in order: this is
exactly `q.split(/[^a-z0-9]+/).filter(Boolean)` (splitting produces the
runs plus empty strings at separator boundaries, which `filter(Boolean)`
removes). -/
def alnumRuns : List Char → List (List Char)
  | [] => []
  | c :: rest =>
    let tailRuns := alnumRuns rest
    if isQueryAlnum c then
      match rest with
      | [] => [[c]]
      | d :: _ =>
        if isQueryAlnum d then
          match tailRuns with
          | r :: rt => (c :: r) :: rt
          | [] => [[c]]
        else [c] :: tailRuns
    else tailRuns

/-- `scoreKnowledgeBase` from the tool module: the number of lower-cased
query keywords occurring as substrings of the lower-cased title+content. -/
def scoreKnowledgeBase (query : String) (doc : KBDoc) : Nat :=
  let q := jsToLower query
  let text := jsToLower (doc.title ++ " " ++ doc.content)
  let keywords := alnumRuns q.toList
  keywords.foldl (fun total word => total + (if containsSub text.toList word then 1 else 0)) 0

/-- A scored knowledge-base document, as built inside `knowledgeBaseTool`. -/
structure KBEntry where
  doc : KBDoc
  score : Nat
  deriving DecidableEq

/-- Stable insertion of an entry into a list sorted by descending score:
the new element goes before the first element whose score it reaches.
Folded over the list this gives the stable descending sort performed by
`Array.prototype.sort((a, b) => b.score - a.score)`. -/
def insertByScoreDesc (x : KBEntry) : List KBEntry → List KBEntry
  | [] => [x]
  | y :: t => if y.score ≤ x.score then x :: y :: t else y :: insertByScoreDesc x t

/-- Stable sort by descending score (models the comparator sort). -/
def sortByScoreDesc : List KBEntry → List KBEntry
  | [] => []
  | x :: t => insertByScoreDesc x (sortByScoreDesc t)

/-- The ranked list built by `knowledgeBaseTool`: score every document,
keep the ones with positive score, sort by descending score, take the
first two. -/
def rankedEntries (q : String) : List KBEntry :=
  ((sortByScoreDesc ((KNOWLEDGE_BASE.map
      (fun doc => { doc := doc, score := scoreKnowledgeBase q doc })).filter
      (fun entry => 0 < entry.score)))).take 2

/-- Rendering of one ranked entry, verbatim from the source. -/
def renderEntry (entry : KBEntry) : String :=
  "• " ++ entry.doc.title ++ ": " ++ entry.doc.content

/-- `knowledgeBaseTool` from the tool module. -/
def knowledgeBaseTool (input : String) (ctx : ToolContext) (n : Nat) : ToolExecution :=
  let q := if input = "" then ctx.task else input
  let ranked := rankedEntries q
  let output :=
    if 0 < ranked.length then String.intercalate "\n" (ranked.map renderEntry)
    else "No relevant knowledge snippets found."
  { id := toString n, tool := "knowledgeBase", input := input, output := output
    success := true, error := none }

/-! ## Web search tool -/

/-- One element of a nested `Topics` array (`{ Text?: string }`). -/
structure SubTopic where
  Text : Option String
  deriving DecidableEq

/-- One element of `RelatedTopics`: such an object may directly carry a
`Text` field, a nested `Topics` list, or both; `none` models an absent
field. -/
structure RelatedTopic where
  Text : Option String
  Name : Option String
  Topics : Option (List SubTopic)
  deriving DecidableEq

/-- The decoded JSON body consumed by the search tool. -/
structure SearchData where
  AbstractText : Option String
  RelatedTopics : Option (List RelatedTopic)
  deriving DecidableEq

/-- The outcome of the HTTP GET issued by the search tool: either the call
or the JSON decoding throws (with the extracted message), or a response
with the given status and decoded body is obtained. -/
inductive FetchResult where
  | throws (msg : String)
  | replies (status : Nat) (data : SearchData)

/-- The snippets contributed by one optional string field: the string when
it is present and truthy (non-empty), nothing otherwise.  Models the
guarded `snippets.push(x)` pattern of the source. -/
def truthyStr : Option String → List String
  | some s => if s = "" then [] else [s]
  | none => []

/-- Snippet collection, verbatim: the truthy abstract text first, then for
each related topic its truthy `Text` followed by the truthy `Text`s of its
nested `Topics` (string truthiness: present and non-empty). -/
def collectSnippets (data : SearchData) : List String :=
  truthyStr data.AbstractText ++
  (match data.RelatedTopics with
   | none => []
   | some topics =>
     topics.flatMap (fun topic =>
       truthyStr topic.Text ++
       (match topic.Topics with
        | none => []
        | some subs => subs.flatMap (fun sub => truthyStr sub.Text))))

/-! ## Calculator tool -/

/-- The character whitelist `[0-9+\-*/().%\s^]` (ASCII `\s` part; the
engine additionally accepts Unicode whitespace in `\s`, which strict-mode
evaluation then treats as whitespace as well, so no property differs). -/
def isSafeMathChar (c : Char) : Bool :=
  c.isDigit || c == '+' || c == '-' || c == '*' || c == '/' ||
  c == '(' || c == ')' || c == '.' || c == '%' || isJsSpace c || c == '^'

/-- `isSafeMathExpression`: the regex `^[0-9+\-*/().%\s^]*$` holds iff
every character is whitelisted. -/
def isSafeMathExpression (s : String) : Bool :=
  s.toList.all isSafeMathChar

/-- An ECMAScript number value of the modelled fragment: an exact rational,
`NaN`, or a signed infinity. -/
inductive JsVal where
  | num (q : ℚ)
  | nan
  | inf (pos : Bool)
  deriving DecidableEq

/-- Truncation toward zero of a rational (ECMAScript `ToIntegerOrInfinity`
on finite values). -/
def ratTrunc (q : ℚ) : Int :=
  if 0 ≤ q.num then Int.ediv q.num q.den else - Int.ediv (- q.num) q.den

/-- ECMAScript `ToInt32`. -/
def toInt32 : JsVal → Int
  | .nan => 0
  | .inf _ => 0
  | .num q =>
    let m : Int := ratTrunc q % 4294967296
    if 2147483648 ≤ m then m - 4294967296 else m

/-- The bitwise-XOR operator `^` (ECMAScript: `ToInt32` both operands, XOR
the 32-bit patterns, reinterpret as a signed 32-bit integer). -/
def jsXor (a b : JsVal) : JsVal :=
  let x : Nat := ((toInt32 a) % 4294967296).toNat
  let y : Nat := ((toInt32 b) % 4294967296).toNat
  let r : Nat := Nat.xor x y
  .num (((if 2147483648 ≤ r then (r : Int) - 4294967296 else (r : Int)) : Int) : ℚ)

/-- Unary negation. -/
def jsNeg : JsVal → JsVal
  | .num q => .num (-q)
  | .nan => .nan
  | .inf p => .inf (!p)

/-- Unary plus (`ToNumber` is the identity on numbers). -/
def jsUnaryPlus : JsVal → JsVal := id

/-- Addition. -/
def jsAdd : JsVal → JsVal → JsVal
  | .nan, _ => .nan
  | _, .nan => .nan
  | .num a, .num b => .num (a + b)
  | .inf p, .inf q => if p = q then .inf p else .nan
  | .inf p, .num _ => .inf p
  | .num _, .inf p => .inf p

/-- Subtraction (`a - b` is `a + (-b)` in IEEE arithmetic). -/
def jsSub (a b : JsVal) : JsVal := jsAdd a (jsNeg b)

/-- Multiplication. -/
def jsMul : JsVal → JsVal → JsVal
  | .nan, _ => .nan
  | _, .nan => .nan
  | .num a, .num b => .num (a * b)
  | .inf p, .inf q => .inf (p = q)
  | .inf p, .num a => if a = 0 then .nan else if 0 < a then .inf p else .inf (!p)
  | .num a, .inf p => if a = 0 then .nan else if 0 < a then .inf p else .inf (!p)

/-- Division (signed zero is not modelled: a zero divisor counts as `+0`). -/
def jsDiv : JsVal → JsVal → JsVal
  | .nan, _ => .nan
  | _, .nan => .nan
  | .num a, .num b =>
    if b = 0 then (if a = 0 then .nan else if 0 < a then .inf true else .inf false)
    else .num (a / b)
  | .num _, .inf _ => .num 0
  | .inf p, .num a => if 0 ≤ a then .inf p else .inf (!p)
  | .inf _, .inf _ => .nan

/-- Remainder (sign of the dividend, as in ECMAScript). -/
def jsMod : JsVal → JsVal → JsVal
  | .nan, _ => .nan
  | _, .nan => .nan
  | .inf _, _ => .nan
  | .num a, .inf _ => .num a
  | .num a, .num b =>
    if b = 0 then .nan else .num (a - b * ((ratTrunc (a / b) : Int) : ℚ))

/-- Exponentiation `**`.  A zero exponent yields `1` for every base; an
integer exponent of a finite base is an exact rational power; a
non-integer exponent of a negative base is `NaN` as in ECMAScript; the
remaining non-integer-exponent cases are irrational in general and are
modelled as `NaN` (a documented deviation unreachable from the proved
properties). -/
def jsPow (a b : JsVal) : JsVal :=
  match b with
  | .num q =>
    if q = 0 then .num 1
    else
      match a with
      | .nan => .nan
      | .inf p =>
        if 0 < q then
          (if p then .inf true
           else if (ratTrunc q : ℚ) = q ∧ ratTrunc q % 2 = 1 then .inf false
           else .inf true)
        else .num 0
      | .num base =>
        if (ratTrunc q : ℚ) = q then
          (if base = 0 then (if 0 < q then .num 0 else .inf true)
           else .num (base ^ ratTrunc q))
        else .nan
  | .nan => .nan
  | .inf p =>
    match a with
    | .nan => .nan
    | .inf _ => if p then .inf true else .num 0
    | .num base =>
      if base = 1 ∨ base = -1 then .nan
      else if (if p then 1 < |base| else |base| < 1) then .inf true
      else .num 0

/-- Tokens of the expression fragment admitted by the whitelist.  `inc`
and `dec` are the `++`/`--` update operators (lexed by maximal munch, never
valid in this fragment), `pow` is `**`. -/
inductive Tok where
  | num (q : ℚ)
  | plus
  | minus
  | star
  | slash
  | percent
  | caret
  | pow
  | inc
  | dec
  | lparen
  | rparen
  deriving DecidableEq

/-- Numeric value of a digit run. -/
def digitsToNat (ds : List Char) : Nat :=
  ds.foldl (fun acc c => 10 * acc + (c.toNat - 48)) 0

/-- Value of a numeric literal with integer digits `ds` and fraction
digits `fs`. -/
def mkNumLit (ds fs : List Char) : ℚ :=
  (digitsToNat ds : ℚ) + (digitsToNat fs : ℚ) / ((10 : ℚ) ^ fs.length)

/-- Skip the rest of a `/* ... */` comment; `none` if unterminated. -/
def skipBlockComment : List Char → Option (List Char)
  | [] => none
  | '*' :: '/' :: rest => some rest
  | _ :: rest => skipBlockComment rest

/-- The ECMAScript lexer restricted to the whitelisted alphabet: operators
by maximal munch (`**`, `++`, `--`), line and block comments, numeric
literals with the strict-mode leading-zero restriction. -/
def tokenizeAux (fuel : Nat) (l : List Char) : Except String (List Tok) :=
  match fuel, l with
  | 0, _ => .error "SyntaxError: lexer fuel exhausted"
  | _ + 1, [] => .ok []
  | fuel + 1, c :: cs =>
    if isJsSpace c then tokenizeAux fuel cs
    else if c == '(' then (tokenizeAux fuel cs).map (Tok.lparen :: ·)
    else if c == ')' then (tokenizeAux fuel cs).map (Tok.rparen :: ·)
    else if c == '^' then (tokenizeAux fuel cs).map (Tok.caret :: ·)
    else if c == '%' then (tokenizeAux fuel cs).map (Tok.percent :: ·)
    else if c == '+' then
      match cs with
      | '+' :: cs2 => (tokenizeAux fuel cs2).map (Tok.inc :: ·)
      | _ => (tokenizeAux fuel cs).map (Tok.plus :: ·)
    else if c == '-' then
      match cs with
      | '-' :: cs2 => (tokenizeAux fuel cs2).map (Tok.dec :: ·)
      | _ => (tokenizeAux fuel cs).map (Tok.minus :: ·)
    else if c == '*' then
      match cs with
      | '*' :: cs2 => (tokenizeAux fuel cs2).map (Tok.pow :: ·)
      | _ => (tokenizeAux fuel cs).map (Tok.star :: ·)
    else if c == '/' then
      match cs with
      | '/' :: cs2 => tokenizeAux fuel (cs2.dropWhile (fun d => d != '\n'))
      | '*' :: cs2 =>
        (match skipBlockComment cs2 with
         | some rest => tokenizeAux fuel rest
         | none => .error "SyntaxError: unterminated comment")
      | _ => (tokenizeAux fuel cs).map (Tok.slash :: ·)
    else if c.isDigit || c == '.' then
      let (ds, r1) := (c :: cs).span Char.isDigit
      if 2 ≤ ds.length ∧ ds.head? = some '0' then
        .error "SyntaxError: decimal with leading zero is not allowed in strict mode"
      else
        match r1 with
        | '.' :: r2 =>
          let (fs, r3) := r2.span Char.isDigit
          if ds.isEmpty ∧ fs.isEmpty then .error "SyntaxError: unexpected token ."
          else (tokenizeAux fuel r3).map (Tok.num (mkNumLit ds fs) :: ·)
        | _ =>
          if ds.isEmpty then .error "SyntaxError: unexpected token"
          else (tokenizeAux fuel r1).map (Tok.num (mkNumLit ds []) :: ·)
    else .error "SyntaxError: unexpected character"

mutual

/-- `PrimaryExpression`: a numeric literal or a parenthesized expression. -/
def parsePrimary (fuel : Nat) (toks : List Tok) : Except String (JsVal × List Tok) :=
  match fuel, toks with
  | 0, _ => .error "SyntaxError: expression too deep"
  | _ + 1, Tok.num q :: rest => .ok (JsVal.num q, rest)
  | fuel + 1, Tok.lparen :: rest =>
    match parseXor fuel rest with
    | .error e => .error e
    | .ok (v, r1) =>
      match r1 with
      | Tok.rparen :: r2 => .ok (v, r2)
      | _ => .error "SyntaxError: expected closing parenthesis"
  | _ + 1, _ => .error "SyntaxError: unexpected token"

/-- `UnaryExpression`: a chain of unary `+`/`-` over a primary (no `**`
inside, per the ECMAScript grammar). -/
def parseUnary (fuel : Nat) (toks : List Tok) : Except String (JsVal × List Tok) :=
  match fuel, toks with
  | 0, _ => .error "SyntaxError: expression too deep"
  | fuel + 1, Tok.minus :: rest =>
    match parseUnary fuel rest with
    | .error e => .error e
    | .ok (v, r1) => .ok (jsNeg v, r1)
  | fuel + 1, Tok.plus :: rest =>
    match parseUnary fuel rest with
    | .error e => .error e
    | .ok (v, r1) => .ok (jsUnaryPlus v, r1)
  | fuel + 1, toks => parsePrimary fuel toks

/-- `ExponentiationExpression`: either a unary expression (after which a
`**` token is a syntax error, surfaced by the caller as an unconsumed
token), or a primary followed by a right-associated `**`. -/
def parseExpo (fuel : Nat) (toks : List Tok) : Except String (JsVal × List Tok) :=
  match fuel, toks with
  | 0, _ => .error "SyntaxError: expression too deep"
  | fuel + 1, Tok.minus :: rest => parseUnary fuel (Tok.minus :: rest)
  | fuel + 1, Tok.plus :: rest => parseUnary fuel (Tok.plus :: rest)
  | fuel + 1, toks =>
    match parsePrimary fuel toks with
    | .error e => .error e
    | .ok (b, r1) =>
      match r1 with
      | Tok.pow :: r2 =>
        (match parseExpo fuel r2 with
         | .error e => .error e
         | .ok (e, r3) => .ok (jsPow b e, r3))
      | _ => .ok (b, r1)

/-- Left-associated tail of a `MultiplicativeExpression`. -/
def parseMulRest (fuel : Nat) (acc : JsVal) (toks : List Tok) : Except String (JsVal × List Tok) :=
  match fuel, toks with
  | 0, _ => .error "SyntaxError: expression too deep"
  | fuel + 1, Tok.star :: rest =>
    (match parseExpo fuel rest with
     | .error e => .error e
     | .ok (v, r) => parseMulRest fuel (jsMul acc v) r)
  | fuel + 1, Tok.slash :: rest =>
    (match parseExpo fuel rest with
     | .error e => .error e
     | .ok (v, r) => parseMulRest fuel (jsDiv acc v) r)
  | fuel + 1, Tok.percent :: rest =>
    (match parseExpo fuel rest with
     | .error e => .error e
     | .ok (v, r) => parseMulRest fuel (jsMod acc v) r)
  | _ + 1, toks => .ok (acc, toks)

/-- `MultiplicativeExpression`. -/
def parseMul (fuel : Nat) (toks : List Tok) : Except String (JsVal × List Tok) :=
  match fuel, toks with
  | 0, _ => .error "SyntaxError: expression too deep"
  | fuel + 1, toks =>
    match parseExpo fuel toks with
    | .error e => .error e
    | .ok (v, r) => parseMulRest fuel v r

/-- Left-associated tail of an `AdditiveExpression`. -/
def parseAddRest (fuel : Nat) (acc : JsVal) (toks : List Tok) : Except String (JsVal × List Tok) :=
  match fuel, toks with
  | 0, _ => .error "SyntaxError: expression too deep"
  | fuel + 1, Tok.plus :: rest =>
    (match parseMul fuel rest with
     | .error e => .error e
     | .ok (v, r) => parseAddRest fuel (jsAdd acc v) r)
  | fuel + 1, Tok.minus :: rest =>
    (match parseMul fuel rest with
     | .error e => .error e
     | .ok (v, r) => parseAddRest fuel (jsSub acc v) r)
  | _ + 1, toks => .ok (acc, toks)

/-- `AdditiveExpression`. -/
def parseAdd (fuel : Nat) (toks : List Tok) : Except String (JsVal × List Tok) :=
  match fuel, toks with
  | 0, _ => .error "SyntaxError: expression too deep"
  | fuel + 1, toks =>
    match parseMul fuel toks with
    | .error e => .error e
    | .ok (v, r) => parseAddRest fuel v r

/-- Left-associated tail of a `BitwiseXORExpression`. -/
def parseXorRest (fuel : Nat) (acc : JsVal) (toks : List Tok) : Except String (JsVal × List Tok) :=
  match fuel, toks with
  | 0, _ => .error "SyntaxError: expression too deep"
  | fuel + 1, Tok.caret :: rest =>
    (match parseAdd fuel rest with
     | .error e => .error e
     | .ok (v, r) => parseXorRest fuel (jsXor acc v) r)
  | _ + 1, toks => .ok (acc, toks)

/-- `BitwiseXORExpression`, the lowest-precedence production reachable
from the whitelisted alphabet. -/
def parseXor (fuel : Nat) (toks : List Tok) : Except String (JsVal × List Tok) :=
  match fuel, toks with
  | 0, _ => .error "SyntaxError: expression too deep"
  | fuel + 1, toks =>
    match parseAdd fuel toks with
    | .error e => .error e
    | .ok (v, r) => parseXorRest fuel v r

end

/-- The modelled ECMAScript evaluation of
`Function('"use strict"; return (<expr>);')()` on the whitelisted
fragment: lex, parse the full token list as one expression, and demand
that every token is consumed. -/
def jsEval (s : String) : Except String JsVal :=
  match tokenizeAux (s.length + 1) s.toList with
  | .error e => .error e
  | .ok toks =>
    match parseXor (2 * toks.length + 2) toks with
    | .error e => .error e
    | .ok (v, []) => .ok v
    | .ok (_, _ :: _) => .error "SyntaxError: unexpected token"

/-- Rendering of a result value inside the template literal
`Result: ${result}` (ECMAScript `ToString` on numbers): integers render
as decimal integers, terminating decimals as exact decimal strings; a
non-terminating rational (float-rounded by the engine) falls back to a
fraction rendering, a documented deviation unreachable from the proved
properties. -/
def jsValToString : JsVal → String
  | .nan => "NaN"
  | .inf true => "Infinity"
  | .inf false => "-Infinity"
  | .num q =>
    if q.den = 1 then toString q.num
    else
      match (List.range 64).find? (fun k => (q * (10 : ℚ) ^ (k + 1)).den = 1) with
      | some k =>
        let digits := (q.num.natAbs * 10 ^ (k + 1)) / q.den
        let s := toString digits
        let padded := (String.mk (List.replicate (k + 2 - s.length) '0')) ++ s
        let point := padded.length - (k + 1)
        (if q.num < 0 then "-" else "") ++
          (padded.take point) ++ "." ++ (padded.drop point)
      | none => toString q.num ++ "/" ++ toString q.den

/-- `calculatorTool` with the evaluation step abstracted: the structure of
the source function with `Function(...)()` replaced by `evalFn`. -/
def calculatorToolWith (evalFn : String → Except String JsVal) (input : String) (n : Nat) : ToolExecution :=
  if jsTrimEmpty input then
    { id := toString n, tool := "calculator", input := input
      output := "No expression provided.", success := false
      error := some "Expression required for calculator tool." }
  else if !(isSafeMathExpression input) then
    { id := toString n, tool := "calculator", input := input
      output := "", success := false
      error := some "Expression contains unsupported characters." }
  else
    match evalFn input with
    | .ok result =>
      { id := toString n, tool := "calculator", input := input
        output := "Result: " ++ jsValToString result, success := true, error := none }
    | .error msg =>
      { id := toString n, tool := "calculator", input := input
        output := "", success := false, error := some msg }

/-- `calculatorTool` from the tool module, with the modelled engine. -/
def calculatorTool (input : String) (n : Nat) : ToolExecution :=
  calculatorToolWith jsEval input n

/-! ## Plans, world, toolkit, executor, orchestration -/

/-- `PlanItem` from `src/lib/agent.ts`. -/
structure PlanItem where
  id : String
  title : String
  description : String
  tool : String
  deriving DecidableEq

/-- `PlanPayload` from `src/lib/agent.ts`. -/
structure PlanPayload where
  reasoning : String
  plan : List PlanItem
  deriving DecidableEq

/-- The external world of one run: the search HTTP oracle, the two OpenAI
call outcomes, and the two clock readings. -/
structure World where
  fetch : String → FetchResult
  planResponse : Except String PlanPayload
  finalResponse : Except String String
  startTime : Int
  endTime : Int

/-- `searchTool` from the tool module.  A non-2xx status throws
`HTTP <status>` inside the `try`, landing in the same `catch` as a
transport or JSON failure. -/
def searchTool (world : World) (input : String) (n : Nat) : ToolExecution :=
  if jsTrimEmpty input then
    { id := toString n, tool := "webSearch", input := input
      output := "Search input missing.", success := false
      error := some "The search tool requires a query string." }
  else
    match world.fetch input with
    | .throws msg =>
      { id := toString n, tool := "webSearch", input := input
        output := "Search failed.", success := false, error := some msg }
    | .replies status data =>
      if 200 ≤ status ∧ status < 300 then
        let joined := String.intercalate "\n" ((collectSnippets data).take 4)
        { id := toString n, tool := "webSearch", input := input
          output := if joined = "" then "No search snippets returned." else joined
          success := true, error := none }
      else
        { id := toString n, tool := "webSearch", input := input
          output := "Search failed.", success := false
          error := some ("HTTP " ++ toString status) }

/-- `Tool` from the tool module (the asynchronous `execute` takes the
world and a fresh-id counter explicitly). -/
structure Tool where
  name : String
  description : String
  execute : World → String → ToolContext → Nat → ToolExecution

/-- The `TOOLKIT` registry, verbatim, including the `input || context.task`
fallbacks of the `execute` wrappers. -/
def TOOLKIT : List Tool :=
  [ { name := "webSearch"
      description := "Live web search using DuckDuckGo instant answer API."
      execute := fun world input ctx n =>
        searchTool world (if input = "" then ctx.task else input) n }
  , { name := "calculator"
      description := "Solve mathematical expressions including +, -, *, /, %, and ^."
      execute := fun _ input _ n => calculatorTool input n }
  , { name := "knowledgeBase"
      description := "Query snippets from a curated strategy and AI knowledge base."
      execute := fun _ input ctx n =>
        knowledgeBaseTool (if input = "" then ctx.task else input) ctx n } ]

/-- `getToolByName`: case-insensitive lookup in the registry. -/
def getToolByName (name : String) : Option Tool :=
  TOOLKIT.find? (fun tool => jsToLower tool.name == jsToLower name)

/-- The body of the executor loop for one plan step: synthesize a failed
record for an unregistered tool, otherwise invoke the tool with the step's
description and the task context. -/
def runStep (world : World) (task : String) (n : Nat) (step : PlanItem) : ToolExecution :=
  match getToolByName step.tool with
  | none =>
    { id := toString n, tool := step.tool, input := ""
      output := "Tool not available.", success := false
      error := some ("Tool " ++ step.tool ++ " is not registered.") }
  | some tool => tool.execute world step.description { task := task } n

/-- `executePlan`: one record per plan step, in plan order. -/
def executePlan (world : World) (plan : List PlanItem) (task : String) (n : Nat) : List ToolExecution :=
  match plan with
  | [] => []
  | step :: rest => runStep world task n step :: executePlan world rest task (n + 1)

/-- `FALLBACK_PLAN_LIMIT` from `src/lib/agent.ts`. -/
def FALLBACK_PLAN_LIMIT : Nat := 3

/-- JavaScript `\w` (`[A-Za-z0-9_]`). -/
def isWordChar (c : Char) : Bool :=
  c.isAlpha || c.isDigit || c == '_'

/-- `analy\w+` as a substring match: some position carries `analy`
followed by at least one word character. -/
def matchesAnalyPlus : List Char → Bool
  | [] => false
  | c :: t =>
    (['a', 'n', 'a', 'l', 'y'].isPrefixOf (c :: t) &&
      (match (c :: t).drop 5 with
       | d :: _ => isWordChar d
       | [] => false)) || matchesAnalyPlus t

/-- The test of `/(analy\w+|calculate|percent|growth|increase|decrease|budget|roi)/`. -/
def analysisRegexTest (s : String) : Bool :=
  let l := s.toList
  matchesAnalyPlus l || containsSub l "calculate".toList ||
  containsSub l "percent".toList || containsSub l "growth".toList ||
  containsSub l "increase".toList || containsSub l "decrease".toList ||
  containsSub l "budget".toList || containsSub l "roi".toList

/-- The test of `/(research|find|latest|current|news|market)/`. -/
def researchRegexTest (s : String) : Bool :=
  let l := s.toList
  containsSub l "research".toList || containsSub l "find".toList ||
  containsSub l "latest".toList || containsSub l "current".toList ||
  containsSub l "news".toList || containsSub l "market".toList

/-- `buildFallbackPlan`: conditionally append the calculator and web-search
steps, unconditionally append the knowledge-base step, truncate to the
fallback limit.  Returns the payload together with the next fresh-id
counter. -/
def buildFallbackPlan (task : String) (n : Nat) : PlanPayload × Nat :=
  let lowerTask := jsToLower task
  let (plan1, n1) :=
    if analysisRegexTest lowerTask then
      ([({ id := toString n, title := "Quantify key numbers"
           description := "Use the calculator to work through the core numeric components of the request."
           tool := "calculator" } : PlanItem)], n + 1)
    else ([], n)
  let (plan2, n2) :=
    if researchRegexTest lowerTask then
      (plan1 ++ [({ id := toString n1, title := "Collect live context"
                    description := "Pull quick snippets from the web to augment knowledge with recent information."
                    tool := "webSearch" } : PlanItem)], n1 + 1)
    else (plan1, n1)
  let plan3 := plan2 ++ [({ id := toString n2, title := "Reference built-in playbooks"
                            description := "Consult the knowledge base for strategic or evergreen guidance."
                            tool := "knowledgeBase" } : PlanItem)]
  ({ reasoning := "Generated plan via heuristic fallback because the OpenAI API key is not configured."
     plan := plan3.take FALLBACK_PLAN_LIMIT }, n2 + 1)

/-- Timing metadata of an outcome (the instants whose ISO renderings the
source emits, plus the reported duration). -/
structure AgentMeta where
  startedAt : Int
  completedAt : Int
  durationMs : Int
  deriving DecidableEq

/-- `AgentOutcome` from `src/lib/agent.ts`. -/
structure AgentOutcome where
  success : Bool
  plan : List PlanItem
  steps : List ToolExecution
  final : String
  reasoning : String
  meta : AgentMeta
  error : Option String
  deriving DecidableEq

/-- The outcome built in the `catch` block of `runAgentTask`. -/
def crashOutcome (world : World) (msg : String) : AgentOutcome :=
  { success := false, plan := [], steps := [], final := "", reasoning := ""
    meta := { startedAt := world.startTime, completedAt := world.endTime
              durationMs := world.endTime - world.startTime }
    error := some msg }

/-- The fixed informational final sentence of the no-credential path. -/
def offlineFinal : String :=
  "The live LLM backend is not configured, but here is an offline plan and tool output you can use as a starting point."

/-- The informational error of the no-credential path. -/
def missingKeyError : String :=
  "OpenAI API key missing. Configure OPENAI_API_KEY to enable full agentic reasoning."

/-- `runAgentTask`.  `apiKey` is `process.env.OPENAI_API_KEY` (`none` for
an unset variable); the guard `if (!apiKey)` fires for an unset or empty
value.  On the credentialed path the three awaited calls live in one
`try`: a planning failure aborts before execution, a summarizing failure
aborts after it, and both land in the same `catch`. -/
def runAgentTask (apiKey : Option String) (task : String) (world : World) (n : Nat) : AgentOutcome :=
  if apiKey.getD "" = "" then
    let fallbackPlan := (buildFallbackPlan task n).1
    let n1 := (buildFallbackPlan task n).2
    let steps := executePlan world fallbackPlan.plan task n1
    { success := true
      plan := fallbackPlan.plan
      steps := steps
      final := offlineFinal
      reasoning := fallbackPlan.reasoning
      meta := { startedAt := world.startTime, completedAt := world.endTime, durationMs := 0 }
      error := some missingKeyError }
  else
    match world.planResponse with
    | .error msg => crashOutcome world msg
    | .ok payload =>
      let steps := executePlan world payload.plan task n
      match world.finalResponse with
      | .error msg => crashOutcome world msg
      | .ok finalText =>
        { success := true
          plan := payload.plan
          steps := steps
          final := finalText
          reasoning := payload.reasoning
          meta := { startedAt := world.startTime, completedAt := world.endTime
                    durationMs := world.endTime - world.startTime }
          error := none }

/-! ## Auxiliary definitions for the statements and their instantiations -/

/-- The record invariant of the specification: `error` is present iff
`success` is false, and `output` may be empty only on failure. -/
def execInvariant (e : ToolExecution) : Prop :=
  (e.error.isSome ↔ e.success = false) ∧ (e.output = "" → e.success = false)

/-- A decoded search body with no abstract text and no related topics. -/
def demoData : SearchData :=
  { AbstractText := none, RelatedTopics := none }

/-- A concrete world whose planner call throws. -/
def demoWorld : World :=
  { fetch := fun _ => .replies 200 demoData
    planResponse := .error "planner exploded"
    finalResponse := .ok "summary"
    startTime := 5
    endTime := 12 }

/-- A concrete world whose planner call succeeds and whose summarizer call
throws. -/
def demoWorldFinalFail : World :=
  { fetch := fun _ => .replies 200 demoData
    planResponse := .ok { reasoning := "r", plan := [] }
    finalResponse := .error "summarizer exploded"
    startTime := 0
    endTime := 7 }

/-- A plan step naming a tool absent from the registry. -/
def demoBogusItem : PlanItem :=
  { id := "s1", title := "Mystery", description := "use the mystery tool", tool := "mystery" }

/-! ## Helper lemmas -/

theorem string_length_zero_eq_empty {s : String} (h : s.length = 0) : s = "" := by
  cases s with
  | mk data =>
    have hd : data = [] := List.length_eq_zero.mp h
    subst hd
    rfl

theorem append_ne_empty_left (p r : String) (hp : p ≠ "") : p ++ r ≠ "" := by
  intro h
  have hl : (p ++ r).length = 0 := by rw [h]; rfl
  rw [String.length_append] at hl
  exact hp (string_length_zero_eq_empty (Nat.eq_zero_of_add_eq_zero_right hl))

theorem intercalate_go_length (sep : String) (l : List String) (acc : String) :
    acc.length ≤ (String.intercalate.go acc sep l).length := by
  induction l generalizing acc with
  | nil => simp [String.intercalate.go]
  | cons a t ih =>
    calc acc.length ≤ (acc ++ sep ++ a).length := by
          simp [String.length_append]
          omega
      _ ≤ (String.intercalate.go (acc ++ sep ++ a) sep t).length := ih _
      _ = (String.intercalate.go acc sep (a :: t)).length := by
          rw [String.intercalate.go]

theorem intercalate_cons_ne_empty (sep a : String) (l : List String) (ha : a ≠ "") :
    String.intercalate sep (a :: l) ≠ "" := by
  intro h
  have hg : String.intercalate sep (a :: l) = String.intercalate.go a sep l := by
    rw [String.intercalate]
  rw [hg] at h
  have hlen : (String.intercalate.go a sep l).length = 0 := by rw [h]; rfl
  have := intercalate_go_length sep l a
  rw [hlen] at this
  exact ha (string_length_zero_eq_empty (Nat.le_zero.mp this))

theorem executePlan_length (w : World) (plan : List PlanItem) (task : String) (n : Nat) :
    (executePlan w plan task n).length = plan.length := by
  induction plan generalizing n with
  | nil => rfl
  | cons step rest ih => simp [executePlan, ih]

theorem executePlan_getElem? (w : World) (plan : List PlanItem) (task : String) (n i : Nat) :
    (executePlan w plan task n)[i]? =
      (plan[i]?).map (fun step => runStep w task (n + i) step) := by
  induction plan generalizing n i with
  | nil => simp [executePlan]
  | cons step rest ih =>
    cases i with
    | zero => simp [executePlan]
    | succ j =>
      simp only [executePlan, List.getElem?_cons_succ]
      rw [ih (n + 1) j]
      have : n + 1 + j = n + (j + 1) := by omega
      rw [this]

theorem renderEntry_ne_empty (entry : KBEntry) : renderEntry entry ≠ "" := by
  unfold renderEntry
  apply append_ne_empty_left
  apply append_ne_empty_left
  apply append_ne_empty_left
  decide

theorem knowledgeBaseTool_invariant (input : String) (ctx : ToolContext) (n : Nat) :
    execInvariant (knowledgeBaseTool input ctx n) := by
  unfold execInvariant knowledgeBaseTool
  constructor
  · simp
  · intro h
    exfalso
    set q := if input = "" then ctx.task else input with hq
    by_cases hr : 0 < (rankedEntries q).length
    · simp only [hr, if_pos] at h
      obtain ⟨e, t, he⟩ := List.exists_cons_of_ne_nil (List.length_pos.mp hr)
      rw [he] at h
      simp only [List.map_cons] at h
      exact intercalate_cons_ne_empty "\n" (renderEntry e) _ (renderEntry_ne_empty e) h
    · simp only [hr, if_neg, if_false] at h
      simp at h

theorem searchTool_invariant (w : World) (input : String) (n : Nat) :
    execInvariant (searchTool w input n) := by
  unfold execInvariant searchTool
  by_cases ht : jsTrimEmpty input
  · simp [ht]
  · simp only [ht, Bool.false_eq_true, if_neg, if_false]
    cases hf : w.fetch input with
    | throws msg => simp
    | replies status data =>
      by_cases hok : 200 ≤ status ∧ status < 300
      · simp only [hok, if_pos]
        constructor
        · simp
        · intro h
          exfalso
          by_cases hj : String.intercalate "\n" ((collectSnippets data).take 4) = ""
          · simp [hj] at h
          · simp [hj] at h
      · simp [hok]

theorem calculatorToolWith_invariant (evalFn : String → Except String JsVal)
    (input : String) (n : Nat) :
    execInvariant (calculatorToolWith evalFn input n) := by
  unfold execInvariant calculatorToolWith
  by_cases ht : jsTrimEmpty input
  · simp [ht]
  · by_cases hs : isSafeMathExpression input
    · simp only [ht, Bool.false_eq_true, if_neg, if_false, hs, Bool.not_true]
      cases he : evalFn input with
      | ok v =>
        simp only []
        constructor
        · simp
        · intro h
          exact absurd h (append_ne_empty_left "Result: " (jsValToString v) (by decide))
      | error msg => simp
    · simp [ht, hs]

theorem getToolByName_mem {name : String} {t : Tool} (h : getToolByName name = some t) :
    t ∈ TOOLKIT :=
  List.mem_of_find?_eq_some h

theorem runStep_invariant (w : World) (task : String) (n : Nat) (step : PlanItem) :
    execInvariant (runStep w task n step) := by
  unfold runStep
  cases hl : getToolByName step.tool with
  | none =>
    constructor
    · simp
    · intro h
      simp at h
  | some t =>
    have hmem := getToolByName_mem hl
    simp only [TOOLKIT, List.mem_cons, List.mem_singleton] at hmem
    rcases hmem with h1 | h2 | h3 | hfalse
    · subst h1
      exact searchTool_invariant w _ n
    · subst h2
      exact calculatorToolWith_invariant jsEval _ n
    · subst h3
      exact knowledgeBaseTool_invariant _ _ n
    · cases hfalse

theorem executePlan_invariant (w : World) (plan : List PlanItem) (task : String) (n : Nat) :
    ∀ e ∈ executePlan w plan task n, execInvariant e := by
  induction plan generalizing n with
  | nil => intro e he; cases he
  | cons step rest ih =>
    intro e he
    rcases List.mem_cons.mp he with h | h
    · subst h
      exact runStep_invariant w task n step
    · exact ih (n + 1) e h

theorem mem_truthyStr {o : Option String} {s : String} (h : s ∈ truthyStr o) : s ≠ "" := by
  cases o with
  | none => cases h
  | some x =>
    simp only [truthyStr] at h
    by_cases hx : x = ""
    · simp [hx] at h
    · simp [hx] at h
      subst h
      exact hx

theorem mem_collectSnippets_ne_empty {data : SearchData} {s : String}
    (h : s ∈ collectSnippets data) : s ≠ "" := by
  unfold collectSnippets at h
  rcases List.mem_append.mp h with h1 | h2
  · exact mem_truthyStr h1
  · cases hrt : data.RelatedTopics with
    | none => rw [hrt] at h2; cases h2
    | some topics =>
      rw [hrt] at h2
      obtain ⟨topic, _, hs⟩ := List.mem_flatMap.mp h2
      rcases List.mem_append.mp hs with ha | hb
      · exact mem_truthyStr ha
      · cases htp : topic.Topics with
        | none => rw [htp] at hb; cases hb
        | some subs =>
          rw [htp] at hb
          obtain ⟨sub, _, hs2⟩ := List.mem_flatMap.mp hb
          exact mem_truthyStr hs2

theorem buildFallbackPlan_split (task : String) (n : Nat) :
    ∃ pre item,
      (buildFallbackPlan task n).1.plan = pre ++ [item] ∧
      item.tool = "knowledgeBase" ∧
      pre.length ≤ 2 ∧
      (∀ x ∈ pre, x.tool = "calculator" ∨ x.tool = "webSearch") ∧
      (analysisRegexTest (jsToLower task) = false →
        researchRegexTest (jsToLower task) = false → pre = []) := by
  by_cases h1 : analysisRegexTest (jsToLower task) <;>
    by_cases h2 : researchRegexTest (jsToLower task)
  · refine ⟨[{ id := toString n, title := "Quantify key numbers"
               description := "Use the calculator to work through the core numeric components of the request."
               tool := "calculator" },
             { id := toString (n + 1), title := "Collect live context"
               description := "Pull quick snippets from the web to augment knowledge with recent information."
               tool := "webSearch" }],
            { id := toString (n + 1 + 1), title := "Reference built-in playbooks"
              description := "Consult the knowledge base for strategic or evergreen guidance."
              tool := "knowledgeBase" }, ?_, rfl, by simp, ?_, ?_⟩
    · simp [buildFallbackPlan, h1, h2, FALLBACK_PLAN_LIMIT]
    · intro x hx
      rcases List.mem_cons.mp hx with h | h
      · subst h; left; rfl
      · rcases List.mem_singleton.mp h with h
        subst h; right; rfl
    · intro ha; rw [ha] at h1; cases h1
  · refine ⟨[{ id := toString n, title := "Quantify key numbers"
               description := "Use the calculator to work through the core numeric components of the request."
               tool := "calculator" }],
            { id := toString (n + 1), title := "Reference built-in playbooks"
              description := "Consult the knowledge base for strategic or evergreen guidance."
              tool := "knowledgeBase" }, ?_, rfl, by simp, ?_, ?_⟩
    · simp [buildFallbackPlan, h1, h2, FALLBACK_PLAN_LIMIT]
    · intro x hx
      rcases List.mem_singleton.mp hx with h
      subst h; left; rfl
    · intro ha; rw [ha] at h1; cases h1
  · refine ⟨[{ id := toString n, title := "Collect live context"
               description := "Pull quick snippets from the web to augment knowledge with recent information."
               tool := "webSearch" }],
            { id := toString (n + 1), title := "Reference built-in playbooks"
              description := "Consult the knowledge base for strategic or evergreen guidance."
              tool := "knowledgeBase" }, ?_, rfl, by simp, ?_, ?_⟩
    · simp [buildFallbackPlan, h1, h2, FALLBACK_PLAN_LIMIT]
    · intro x hx
      rcases List.mem_singleton.mp hx with h
      subst h; right; rfl
    · intro _ hr; rw [hr] at h2; cases h2
  · refine ⟨[],
            { id := toString n, title := "Reference built-in playbooks"
              description := "Consult the knowledge base for strategic or evergreen guidance."
              tool := "knowledgeBase" }, ?_, rfl, by simp, ?_, ?_⟩
    · simp [buildFallbackPlan, h1, h2, FALLBACK_PLAN_LIMIT]
    · intro x hx; cases hx
    · intro _ _; rfl

theorem filter_pos_score_nil (q : String) (docs : List KBDoc)
    (hz : ∀ doc ∈ docs, scoreKnowledgeBase q doc = 0) :
    (docs.map (fun doc => ({ doc := doc, score := scoreKnowledgeBase q doc } : KBEntry))).filter
      (fun entry => 0 < entry.score) = [] := by
  induction docs with
  | nil => rfl
  | cons d t ih =>
    simp only [List.map_cons, List.filter_cons]
    rw [hz d (List.mem_cons_self d t)]
    simp only [Nat.lt_irrefl, decide_False, Bool.false_eq_true, if_false]
    exact ih (fun doc hd => hz doc (List.mem_cons_of_mem d hd))

/-! ## The specified properties -/

/-- C1: with no `OPENAI_API_KEY` configured, every task yields an outcome
with `success` true together with a non-null `error` naming the missing
credential, a non-empty plan, exactly one `steps` entry per plan item, and
`final` equal to the fixed informational sentence. -/
theorem no_credential_outcome_contract (task : String) (w : World) (n : Nat) :
    (runAgentTask none task w n).success = true ∧
    (runAgentTask none task w n).error = some missingKeyError ∧
    (runAgentTask none task w n).error ≠ none ∧
    (runAgentTask none task w n).plan ≠ [] ∧
    (runAgentTask none task w n).steps.length = (runAgentTask none task w n).plan.length ∧
    (runAgentTask none task w n).final = offlineFinal := by
  have hout : runAgentTask none task w n =
      { success := true
        plan := (buildFallbackPlan task n).1.plan
        steps := executePlan w (buildFallbackPlan task n).1.plan task (buildFallbackPlan task n).2
        final := offlineFinal
        reasoning := (buildFallbackPlan task n).1.reasoning
        meta := { startedAt := w.startTime, completedAt := w.endTime, durationMs := 0 }
        error := some missingKeyError } := by
    simp [runAgentTask]
  rw [hout]
  obtain ⟨pre, item, hplan, _, _, _, _⟩ := buildFallbackPlan_split task n
  refine ⟨rfl, rfl, by simp, ?_, ?_, rfl⟩
  · rw [hplan]
    exact List.append_ne_nil_of_right_ne_nil pre (by simp)
  · exact executePlan_length w _ task _

/-- C2: the executor yields exactly one record per plan item in plan
order; a step naming an unregistered tool yields a failed record with a
non-empty "is not registered" error, and subsequent steps still run (every
index still has its record). -/
theorem executor_record_per_step (w : World) (plan : List PlanItem) (task : String) (n : Nat) :
    (executePlan w plan task n).length = plan.length ∧
    (∀ i : Nat, (executePlan w plan task n)[i]? =
      (plan[i]?).map (fun step => runStep w task (n + i) step)) ∧
    (∀ i : Nat, ∀ step : PlanItem, plan[i]? = some step →
      getToolByName step.tool = none →
      (executePlan w plan task n)[i]? = some
        { id := toString (n + i), tool := step.tool, input := ""
          output := "Tool not available.", success := false
          error := some ("Tool " ++ step.tool ++ " is not registered.") } ∧
      ("Tool " ++ step.tool ++ " is not registered.") ≠ "") := by
  refine ⟨executePlan_length w plan task n, executePlan_getElem? w plan task n, ?_⟩
  intro i step hstep htool
  constructor
  · rw [executePlan_getElem? w plan task n, hstep]
    simp [runStep, htool]
  · exact append_ne_empty_left _ _ (append_ne_empty_left "Tool " step.tool (by decide))

theorem executor_record_per_step_witness :
    (executePlan demoWorld [demoBogusItem] "task" 0)[0]? = some
      { id := toString (0 + 0), tool := demoBogusItem.tool, input := ""
        output := "Tool not available.", success := false
        error := some ("Tool " ++ demoBogusItem.tool ++ " is not registered.") } ∧
    ("Tool " ++ demoBogusItem.tool ++ " is not registered.") ≠ "" :=
  (executor_record_per_step demoWorld [demoBogusItem] "task" 0).2.2 0 demoBogusItem rfl rfl

/-- C3: the heuristic planner yields between 1 and 3 steps, always ends
with (and hence always contains) the knowledge-base step, and a task
matching neither keyword pattern yields exactly one step, bound to the
knowledge-base tool. -/
theorem heuristic_planner_shape (task : String) (n : Nat) :
    1 ≤ (buildFallbackPlan task n).1.plan.length ∧
    (buildFallbackPlan task n).1.plan.length ≤ 3 ∧
    (∃ item, (buildFallbackPlan task n).1.plan.getLast? = some item ∧
      item.tool = "knowledgeBase") ∧
    (∃ item ∈ (buildFallbackPlan task n).1.plan, item.tool = "knowledgeBase") ∧
    (analysisRegexTest (jsToLower task) = false →
      researchRegexTest (jsToLower task) = false →
      ∃ item, (buildFallbackPlan task n).1.plan = [item] ∧
        item.tool = "knowledgeBase") := by
  obtain ⟨pre, item, hplan, htool, hlen, _, hnone⟩ := buildFallbackPlan_split task n
  refine ⟨?_, ?_, ?_, ?_, ?_⟩
  · rw [hplan]; simp
  · rw [hplan]; simp; omega
  · exact ⟨item, by rw [hplan, List.getLast?_concat], htool⟩
  · exact ⟨item, by rw [hplan]; simp, htool⟩
  · intro ha hr
    have hp := hnone ha hr
    subst hp
    exact ⟨item, by simpa using hplan, htool⟩

theorem heuristic_planner_shape_witness :
    ∃ item, (buildFallbackPlan "Plan a product launch" 0).1.plan = [item] ∧
      item.tool = "knowledgeBase" :=
  (heuristic_planner_shape "Plan a product launch" 0).2.2.2.2 (by decide) (by decide)

/-- C4: any calculator input that is non-empty after trimming and contains
a character outside the whitelist is rejected with the "unsupported
characters" error, and the expression is never handed to the evaluator
(the outcome is independent of the evaluation function). -/
theorem calculator_rejects_unsafe (evalA evalB : String → Except String JsVal)
    (input : String) (n : Nat)
    (htrim : jsTrimEmpty input = false)
    (hbad : ∃ c ∈ input.toList, isSafeMathChar c = false) :
    calculatorToolWith evalA input n =
      { id := toString n, tool := "calculator", input := input
        output := "", success := false
        error := some "Expression contains unsupported characters." } ∧
    calculatorToolWith evalA input n = calculatorToolWith evalB input n := by
  have hunsafe : isSafeMathExpression input = false := by
    unfold isSafeMathExpression
    rw [List.all_eq_false]
    obtain ⟨c, hc, hf⟩ := hbad
    exact ⟨c, hc, by simp [hf]⟩
  have hrec : ∀ evalFn : String → Except String JsVal,
      calculatorToolWith evalFn input n =
        { id := toString n, tool := "calculator", input := input
          output := "", success := false
          error := some "Expression contains unsupported characters." } := by
    intro evalFn
    unfold calculatorToolWith
    simp [htrim, hunsafe]
  exact ⟨hrec evalA, (hrec evalA).trans (hrec evalB).symm⟩

theorem calculator_rejects_unsafe_witness :
    calculatorToolWith jsEval "2+x" 0 =
      { id := toString 0, tool := "calculator", input := "2+x"
        output := "", success := false
        error := some "Expression contains unsupported characters." } ∧
    calculatorToolWith jsEval "2+x" 0 =
      calculatorToolWith (fun _ => .ok (JsVal.num 7)) "2+x" 0 :=
  calculator_rejects_unsafe jsEval (fun _ => .ok (JsVal.num 7)) "2+x" 0
    (by decide) (by decide)

/-- C5: every record produced by a registered tool or by the executor
(including the synthesized unregistered-tool record) has `error` present
iff `success` is false, and an empty `output` only on failure. -/
theorem tool_record_invariant :
    (∀ t ∈ TOOLKIT, ∀ (w : World) (input : String) (ctx : ToolContext) (n : Nat),
      execInvariant (t.execute w input ctx n)) ∧
    (∀ (w : World) (plan : List PlanItem) (task : String) (n : Nat),
      ∀ e ∈ executePlan w plan task n, execInvariant e) := by
  constructor
  · intro t ht w input ctx n
    simp only [TOOLKIT, List.mem_cons, List.mem_singleton] at ht
    rcases ht with h1 | h2 | h3 | hf
    · subst h1; exact searchTool_invariant w _ n
    · subst h2; exact calculatorToolWith_invariant jsEval _ n
    · subst h3; exact knowledgeBaseTool_invariant _ _ n
    · cases hf
  · exact executePlan_invariant

theorem tool_record_invariant_witness :
    execInvariant (knowledgeBaseTool "agentic ai" { task := "agentic ai" } 0) :=
  tool_record_invariant.2 demoWorld
    [{ id := "p", title := "kb", description := "agentic ai", tool := "knowledgeBase" }]
    "agentic ai" 0 (knowledgeBaseTool "agentic ai" { task := "agentic ai" } 0)
    (by decide)

/-- C6: on the credentialed path a planning-call failure or a
summarizing-call failure aborts the run: the outcome has `success` false,
empty plan, steps and final, and carries the caught message. -/
theorem credentialed_failure_aborts (k task msg : String) (w : World) (n : Nat)
    (hk : k ≠ "") :
    (w.planResponse = .error msg →
      runAgentTask (some k) task w n =
        { success := false, plan := [], steps := [], final := "", reasoning := ""
          meta := { startedAt := w.startTime, completedAt := w.endTime
                    durationMs := w.endTime - w.startTime }
          error := some msg }) ∧
    (∀ payload, w.planResponse = .ok payload → w.finalResponse = .error msg →
      runAgentTask (some k) task w n =
        { success := false, plan := [], steps := [], final := "", reasoning := ""
          meta := { startedAt := w.startTime, completedAt := w.endTime
                    durationMs := w.endTime - w.startTime }
          error := some msg }) := by
  constructor
  · intro hp
    simp [runAgentTask, hk, hp, crashOutcome]
  · intro payload hp hf
    simp [runAgentTask, hk, hp, hf, crashOutcome]

theorem credentialed_failure_aborts_witness :
    runAgentTask (some "sk") "t" demoWorld 0 =
      { success := false, plan := [], steps := [], final := "", reasoning := ""
        meta := { startedAt := demoWorld.startTime, completedAt := demoWorld.endTime
                  durationMs := demoWorld.endTime - demoWorld.startTime }
        error := some "planner exploded" } ∧
    runAgentTask (some "sk") "t" demoWorldFinalFail 0 =
      { success := false, plan := [], steps := [], final := "", reasoning := ""
        meta := { startedAt := demoWorldFinalFail.startTime
                  completedAt := demoWorldFinalFail.endTime
                  durationMs := demoWorldFinalFail.endTime - demoWorldFinalFail.startTime }
        error := some "summarizer exploded" } :=
  ⟨(credentialed_failure_aborts "sk" "t" "planner exploded" demoWorld 0 (by decide)).1 rfl,
   (credentialed_failure_aborts "sk" "t" "summarizer exploded" demoWorldFinalFail 0
      (by decide)).2 { reasoning := "r", plan := [] } rfl rfl⟩

/-- C7: on a 2xx response the search tool succeeds with the first at most
four collected snippets joined by newlines, and with the literal
"No search snippets returned." when no snippet was collected. -/
theorem search_success_output (w : World) (input : String) (status : Nat)
    (data : SearchData) (n : Nat)
    (htrim : jsTrimEmpty input = false)
    (hfetch : w.fetch input = .replies status data)
    (hlo : 200 ≤ status) (hhi : status < 300) :
    (searchTool w input n).success = true ∧
    (searchTool w input n).error = none ∧
    (collectSnippets data = [] →
      (searchTool w input n).output = "No search snippets returned.") ∧
    (collectSnippets data ≠ [] →
      (searchTool w input n).output =
        String.intercalate "\n" ((collectSnippets data).take 4)) := by
  have hrec : searchTool w input n =
      { id := toString n, tool := "webSearch", input := input
        output :=
          if String.intercalate "\n" ((collectSnippets data).take 4) = ""
          then "No search snippets returned."
          else String.intercalate "\n" ((collectSnippets data).take 4)
        success := true, error := none } := by
    simp only [searchTool, htrim, Bool.false_eq_true, if_false, hfetch]
    rw [if_pos ⟨hlo, hhi⟩]
  rw [hrec]
  refine ⟨rfl, rfl, ?_, ?_⟩
  · intro hempty
    have h0 : String.intercalate "\n" ((collectSnippets data).take 4) = "" := by
      rw [hempty]; rfl
    simp [h0]
  · intro hne
    obtain ⟨a, t, hat⟩ := List.exists_cons_of_ne_nil hne
    have ha : a ≠ "" :=
      mem_collectSnippets_ne_empty (by rw [hat]; exact List.mem_cons_self a t)
    have hj : String.intercalate "\n" ((collectSnippets data).take 4) ≠ "" := by
      rw [hat, List.take_succ_cons]
      exact intercalate_cons_ne_empty "\n" a _ ha
    simp [hj]

theorem search_success_output_witness :
    (searchTool demoWorld "lean" 0).success = true ∧
    (searchTool demoWorld "lean" 0).output = "No search snippets returned." :=
  ⟨(search_success_output demoWorld "lean" 200 demoData 0 (by decide) rfl
      (by decide) (by decide)).1,
   (search_success_output demoWorld "lean" 200 demoData 0 (by decide) rfl
      (by decide) (by decide)).2.2.1 rfl⟩

/-- C8: the knowledge-base tool always succeeds; when no document scores
above zero against the query it outputs the literal
"No relevant knowledge snippets found.", and otherwise the output renders
the ranked list, which holds at most the top 2 positively scored
documents. -/
theorem knowledge_base_total (input : String) (ctx : ToolContext) (n : Nat) :
    (knowledgeBaseTool input ctx n).success = true ∧
    (knowledgeBaseTool input ctx n).error = none ∧
    (rankedEntries (if input = "" then ctx.task else input)).length ≤ 2 ∧
    ((∀ doc ∈ KNOWLEDGE_BASE,
        scoreKnowledgeBase (if input = "" then ctx.task else input) doc = 0) →
      (knowledgeBaseTool input ctx n).output = "No relevant knowledge snippets found.") ∧
    ((knowledgeBaseTool input ctx n).output ≠ "No relevant knowledge snippets found." →
      (knowledgeBaseTool input ctx n).output =
        String.intercalate "\n"
          ((rankedEntries (if input = "" then ctx.task else input)).map renderEntry)) := by
  refine ⟨rfl, rfl, List.length_take_le _ _, ?_, ?_⟩
  · intro hz
    have hranked : rankedEntries (if input = "" then ctx.task else input) = [] := by
      unfold rankedEntries
      rw [filter_pos_score_nil _ _ hz]
      rfl
    simp [knowledgeBaseTool, hranked]
  · intro hout
    by_cases hlen : 0 < (rankedEntries (if input = "" then ctx.task else input)).length
    · simp [knowledgeBaseTool, hlen]
    · exfalso
      apply hout
      simp [knowledgeBaseTool, hlen]

theorem knowledge_base_total_witness :
    (knowledgeBaseTool "zzyyxx" { task := "zz" } 0).output =
      "No relevant knowledge snippets found." :=
  (knowledge_base_total "zzyyxx" { task := "zz" } 0).2.2.2.1 (by decide)

/-- C9: the caret evaluates with JavaScript bitwise-XOR semantics, not
exponentiation: `2^3` succeeds with output exactly `Result: 1` (and not
`Result: 8`), even though the calculator's published description lists `^`
among the supported operators. -/
theorem caret_is_bitwise_xor :
    (calculatorTool "2^3" 0).success = true ∧
    (calculatorTool "2^3" 0).output = "Result: 1" ∧
    (calculatorTool "2^3" 0).output ≠ "Result: 8" ∧
    (getToolByName "calculator").map (fun t => t.description) =
      some "Solve mathematical expressions including +, -, *, /, %, and ^." ∧
    containsSub "Solve mathematical expressions including +, -, *, /, %, and ^.".toList
      ['^'] = true := by
  exact ⟨by decide, by decide, by decide, rfl, by decide⟩

/-- C10: the no-credential path hardcodes `durationMs` to 0 whatever the
observed instants, while the credentialed path reports the completion
instant minus the start instant. -/
theorem duration_reporting (task : String) (w : World) (n : Nat) (k : String)
    (hk : k ≠ "") :
    (runAgentTask none task w n).meta.durationMs = 0 ∧
    (runAgentTask (some k) task w n).meta.durationMs = w.endTime - w.startTime := by
  constructor
  · simp [runAgentTask]
  · cases hp : w.planResponse with
    | error msg => simp [runAgentTask, hk, hp, crashOutcome]
    | ok payload =>
      cases hf : w.finalResponse with
      | error msg => simp [runAgentTask, hk, hp, hf, crashOutcome]
      | ok finalText => simp [runAgentTask, hk, hp, hf]

theorem duration_reporting_witness :
    (runAgentTask none "t" demoWorld 0).meta.durationMs = 0 ∧
    (runAgentTask (some "sk") "t" demoWorld 0).meta.durationMs =
      demoWorld.endTime - demoWorld.startTime :=
  duration_reporting "t" demoWorld 0 "sk" (by decide)

end Agent
